import Mathlib

/-!
Verification of the school-management repository's data-access and
domain-invariant layer.

The development shallowly embeds the relevant Python code:

* `validate_email` / `validate_age` (school.py) and `is_valid_email`
  (app_tk_done.py): the email regular expression
  `^[a-zA-Z0-9._%+-]+@[a-zA-Z0-9.-]+\.[a-zA-Z]{2,}$` is embedded as an
  executable matcher `emailMatch` over `List Char`, together with the two
  call-site behaviours (Python `re.match` lets `$` also match just before a
  trailing newline; `is_valid_email` strips surrounding whitespace first).
* the entity model with its dictionary (de)serialisation
  (`save_to_dict` / `from_dict` in school.py), over an inductive `Value`
  type standing for JSON-like Python values.
* the sqlite adapter `DB` of db_done.py (integer keys, UNIQUE emails,
  `INSERT ... ON CONFLICT DO UPDATE` upserts, `INSERT OR IGNORE` enrolls,
  `ORDER BY` primary-key queries), as pure state-passing functions over a
  `DBState` of table row lists; fallible statements return `Except`.
* the sqlite adapter `SqliteSchoolDB` of school_sqlite.py (text keys,
  manual rename propagation in `update_student` / `update_course`,
  `ON DELETE CASCADE` / `ON DELETE SET NULL` deletions, name-ordered
  hydration properties), over `SState`.

SQLite semantics mirrored by the embedding: `PRAGMA foreign_keys=ON` makes
foreign-key checks immediate (checked against the rows a statement
modifies, the statement being reverted on violation), `INSERT OR IGNORE`
skips duplicate-primary-key rows but still aborts on foreign-key
violations, and `ORDER BY k` returns a permutation of the result rows that
is sorted by `k`.
-/

/-- Character class `[a-zA-Z0-9._%+-]` of the regex local part. -/
def isLocalChar (c : Char) : Bool :=
  c.isAlpha || c.isDigit || c = '.' || c = '_' || c = '%' || c = '+' || c = '-'

/-- Character class `[a-zA-Z0-9.-]` of the regex domain part. -/
def isDomainChar (c : Char) : Bool :=
  c.isAlpha || c.isDigit || c = '.' || c = '-'

/-- Top-level label `[a-zA-Z]{2,}`: only letters, at least two of them. -/
def tldOk (t : List Char) : Bool :=
  t.all Char.isAlpha && decide (2 ≤ t.length)

/-- Matches `[a-zA-Z0-9.-]*\.[a-zA-Z]{2,}`: some (possibly empty) run of
domain characters, a dot, then a top-level label. -/
def domTail : List Char → Bool
  | [] => false
  | c :: rest => (c = '.' && tldOk rest) || (isDomainChar c && domTail rest)

/-- Matches `[a-zA-Z0-9.-]+\.[a-zA-Z]{2,}`, the part of the regex after `@`. -/
def domainMatch : List Char → Bool
  | [] => false
  | c :: rest => isDomainChar c && domTail rest

/-- Matches `[a-zA-Z0-9._%+-]*@[a-zA-Z0-9.-]+\.[a-zA-Z]{2,}`. -/
def emailTail : List Char → Bool
  | [] => false
  | c :: rest => (c = '@' && domainMatch rest) || (isLocalChar c && emailTail rest)

/-- Exact (full-string) match of the email regex
`[a-zA-Z0-9._%+-]+@[a-zA-Z0-9.-]+\.[a-zA-Z]{2,}` shared by school.py's
`validate_email` and app_tk_done.py's `EMAIL_RE`. -/
def emailMatch : List Char → Bool
  | [] => false
  | c :: rest => isLocalChar c && emailTail rest

/-- Whitespace characters removed by Python's `str.strip()` (ASCII range). -/
def pyIsSpace (c : Char) : Bool :=
  c = ' ' || c = '\t' || c = '\n' || c = '\r' || c = '\x0b' || c = '\x0c'

/-- Python `s.strip()`: drop leading and trailing whitespace. -/
def pyStrip (cs : List Char) : List Char :=
  ((cs.dropWhile pyIsSpace).reverse.dropWhile pyIsSpace).reverse

/-- app_tk_done.py `is_valid_email`: `EMAIL_RE.fullmatch((email or "").strip())`. -/
def is_valid_email (cs : List Char) : Bool :=
  emailMatch (pyStrip cs)

/-- Python `re.match` of the `^...$`-anchored email pattern: `$` matches at
the end of the string or just before a newline at the end of the string. -/
def reDollarMatch (cs : List Char) : Bool :=
  emailMatch cs ||
    (match cs.reverse with
     | c :: rest => c = '\n' && emailMatch rest.reverse
     | [] => false)

/-- school.py `validate_email`: returns `True` on a match of the anchored
pattern and raises `ValueError` otherwise. -/
def validate_email (cs : List Char) : Except String Bool :=
  if reDollarMatch cs then .ok true else .error "Invalid email format"

/-- school.py `validate_age`: raises `ValueError` when the age is negative. -/
def validate_age (age : Int) : Except String Unit :=
  if age < 0 then .error "Age must be non-negative integer" else .ok ()

deriving instance DecidableEq for Except

/-- The spec's description of the pattern: a non-empty local part of ASCII
letters/digits/`._%+-`, an `@`, a non-empty run of domain characters, a dot,
and a top-level label of at least two letters — matched against the entire
string. -/
def EmailShape (cs : List Char) : Prop :=
  ∃ l d t, cs = l ++ '@' :: (d ++ '.' :: t) ∧ l ≠ [] ∧ l.all isLocalChar = true ∧
    d ≠ [] ∧ d.all isDomainChar = true ∧ t.all Char.isAlpha = true ∧ 2 ≤ t.length

/-- JSON-like Python values used by `save_to_dict` / `from_dict`:
strings, integers, `None`, lists and dictionaries (records). -/
inductive Value where
  | vStr : String → Value
  | vInt : Int → Value
  | vNone : Value
  | vList : List Value → Value
  | vRec : List (String × Value) → Value

/-- Python dictionary lookup on a record's field list. -/
def lookupField : List (String × Value) → String → Option Value
  | [], _ => none
  | (k, v) :: rest, key => if k = key then some v else lookupField rest key

/-- Python `data[key]`: raises `KeyError` when the key is absent. -/
def getField (fs : List (String × Value)) (key : String) : Except String Value :=
  match lookupField fs key with
  | some v => .ok v
  | none => .error "KeyError"

/-- Project a `Value` to a string (the entity fields are strings in the code). -/
def asStr : Value → Except String String
  | .vStr s => .ok s
  | _ => .error "TypeError"

/-- Project a `Value` to an integer. -/
def asInt : Value → Except String Int
  | .vInt n => .ok n
  | _ => .error "TypeError"

/-- Sequential effectful map, mirroring a Python list comprehension: the
first raised exception propagates. -/
def mapExcept (f : α → Except String β) : List α → Except String (List β)
  | [] => .ok []
  | x :: xs =>
    match f x with
    | .error e => .error e
    | .ok y =>
      match mapExcept f xs with
      | .error e => .error e
      | .ok ys => .ok (y :: ys)

/-- Project a `Value` to a list of strings (a course-id list). -/
def asStrList : Value → Except String (List String)
  | .vList xs => mapExcept asStr xs
  | _ => .error "TypeError"

/-- Python truthiness of a `Value` (`if data.get("instructor")`). -/
def Value.truthy : Value → Bool
  | .vNone => false
  | .vStr s => !(decide (s = ""))
  | .vInt n => !(decide (n = 0))
  | .vList xs => !xs.isEmpty
  | .vRec fs => !fs.isEmpty

/-- school.py `Person`: name, age and email, validated at construction. -/
structure Person where
  name : String
  age : Int
  email : String
  deriving DecidableEq

/-- school.py `Person.__init__`: validates the email, then the age. -/
def Person.mk' (name : String) (age : Int) (email : String) : Except String Person :=
  match validate_email email.data with
  | .error e => .error e
  | .ok _ =>
    match validate_age age with
    | .error e => .error e
    | .ok _ => .ok ⟨name, age, email⟩

/-- school.py `Student`: a person plus id and registered course ids. -/
structure Student where
  name : String
  age : Int
  email : String
  student_id : String
  registered_courses : List String
  deriving DecidableEq

/-- school.py `Student.__init__` (via `Person.__init__`): validates email and age. -/
def Student.mk' (name : String) (age : Int) (email : String) (student_id : String)
    (registered_courses : List String) : Except String Student :=
  match validate_email email.data with
  | .error e => .error e
  | .ok _ =>
    match validate_age age with
    | .error e => .error e
    | .ok _ => .ok ⟨name, age, email, student_id, registered_courses⟩

/-- school.py `Student.save_to_dict`. -/
def Student.save_to_dict (s : Student) : Value :=
  .vRec [("name", .vStr s.name), ("age", .vInt s.age), ("email", .vStr s.email),
         ("student_id", .vStr s.student_id),
         ("registered_courses", .vList (s.registered_courses.map Value.vStr))]

/-- school.py `Student.from_dict`: reads the fields and runs the validating
constructor. -/
def Student.from_dict (v : Value) : Except String Student := do
  match v with
  | .vRec fs =>
    let name ← getField fs "name" >>= asStr
    let age ← getField fs "age" >>= asInt
    let email ← getField fs "email" >>= asStr
    let sid ← getField fs "student_id" >>= asStr
    let regs ← getField fs "registered_courses" >>= asStrList
    Student.mk' name age email sid regs
  | _ => .error "TypeError"

/-- school.py `Instructor`: a person plus id and assigned course ids. -/
structure Instructor where
  name : String
  age : Int
  email : String
  instructor_id : String
  assigned_courses : List String
  deriving DecidableEq

/-- school.py `Instructor.__init__` (via `Person.__init__`). -/
def Instructor.mk' (name : String) (age : Int) (email : String) (instructor_id : String)
    (assigned_courses : List String) : Except String Instructor :=
  match validate_email email.data with
  | .error e => .error e
  | .ok _ =>
    match validate_age age with
    | .error e => .error e
    | .ok _ => .ok ⟨name, age, email, instructor_id, assigned_courses⟩

/-- school.py `Instructor.save_to_dict`. -/
def Instructor.save_to_dict (i : Instructor) : Value :=
  .vRec [("name", .vStr i.name), ("age", .vInt i.age), ("email", .vStr i.email),
         ("instructor_id", .vStr i.instructor_id),
         ("assigned_courses", .vList (i.assigned_courses.map Value.vStr))]

/-- school.py `Instructor.from_dict`. -/
def Instructor.from_dict (v : Value) : Except String Instructor := do
  match v with
  | .vRec fs =>
    let name ← getField fs "name" >>= asStr
    let age ← getField fs "age" >>= asInt
    let email ← getField fs "email" >>= asStr
    let iid ← getField fs "instructor_id" >>= asStr
    let assigned ← getField fs "assigned_courses" >>= asStrList
    Instructor.mk' name age email iid assigned
  | _ => .error "TypeError"

/-- school.py `Course`: id, name, optional instructor, enrolled students. -/
structure Course where
  course_id : String
  course_name : String
  instructor : Option Instructor
  enrolled_students : List Student
  deriving DecidableEq

/-- school.py `Course.save_to_dict`: nests the instructor record (or `None`)
and the list of enrolled student records. -/
def Course.save_to_dict (c : Course) : Value :=
  .vRec [("course_id", .vStr c.course_id), ("course_name", .vStr c.course_name),
         ("instructor",
           match c.instructor with
           | some i => i.save_to_dict
           | none => .vNone),
         ("enrolled_students", .vList (c.enrolled_students.map Student.save_to_dict))]

/-- school.py `Course.from_dict`: `data.get("instructor")` is deserialised
only when truthy, `data.get("enrolled_students", [])` defaults to the empty
list; `Course.__init__` performs no validation. -/
def Course.from_dict (v : Value) : Except String Course := do
  match v with
  | .vRec fs =>
    let instructor ← match lookupField fs "instructor" with
      | some iv =>
        if iv.truthy then (Instructor.from_dict iv).map some else pure none
      | none => pure (none : Option Instructor)
    let enrolled ← match lookupField fs "enrolled_students" with
      | some (.vList xs) => mapExcept Student.from_dict xs
      | some _ => Except.error "TypeError"
      | none => pure ([] : List Student)
    let cid ← getField fs "course_id" >>= asStr
    let cname ← getField fs "course_name" >>= asStr
    pure ⟨cid, cname, instructor, enrolled⟩
  | _ => .error "TypeError"

/-- Construction succeeds for this age/email pair: the age is non-negative
and the email passes `validate_email`'s anchored-pattern match. -/
def personOkB (age : Int) (email : String) : Bool :=
  decide (0 ≤ age) && reDollarMatch email.data

/-- A `Student` whose fields satisfy the constructor's validation. -/
def studentOkB (s : Student) : Bool := personOkB s.age s.email

/-- An `Instructor` whose fields satisfy the constructor's validation. -/
def instructorOkB (i : Instructor) : Bool := personOkB i.age i.email

/-- A `Course` whose nested instructor and students satisfy validation. -/
def courseOkB (c : Course) : Bool :=
  (match c.instructor with
   | some i => instructorOkB i
   | none => true) &&
  c.enrolled_students.all studentOkB

/-- Row of db_done.py's `students` table:
`student_id INTEGER PRIMARY KEY, name, age, email TEXT UNIQUE`. -/
structure DStudentRow where
  sid : Int
  name : String
  age : Int
  email : String
  deriving DecidableEq

/-- Row of db_done.py's `instructors` table. -/
structure DInstructorRow where
  iid : Int
  name : String
  age : Int
  email : String
  deriving DecidableEq

/-- Row of db_done.py's `courses` table (`instructor_id` nullable FK). -/
structure DCourseRow where
  cid : Int
  cname : String
  instr : Option Int
  deriving DecidableEq

/-- Row of db_done.py's `enrollments` table, PK `(student_id, course_id)`. -/
structure DEnrollRow where
  sid : Int
  cid : Int
  deriving DecidableEq

/-- The four tables of db_done.py's schema, as row lists in insertion order. -/
structure DBState where
  students : List DStudentRow
  instructors : List DInstructorRow
  courses : List DCourseRow
  enrollments : List DEnrollRow
  deriving DecidableEq

/-- Key uniqueness of a table: no two rows share the image under `f`
(the check a `PRIMARY KEY` / `UNIQUE` column maintains). -/
def uniqueKeys [DecidableEq β] (f : α → β) : List α → Bool
  | [] => true
  | x :: xs => !(xs.any fun y => decide (f y = f x)) && uniqueKeys f xs

namespace DB

/-- db_done.py `DB.upsert_student`:
`INSERT INTO students ... ON CONFLICT(student_id) DO UPDATE SET ...`.
A row with the same id is overwritten, otherwise a row is appended; the
statement aborts when the email collides with a different id
(`email UNIQUE`). -/
def upsert_student (st : DBState) (sid : Int) (name : String) (age : Int)
    (email : String) : Except String DBState :=
  if st.students.any (fun r => decide (r.email = email) && decide (r.sid ≠ sid)) then
    .error "UNIQUE constraint failed: students.email"
  else if st.students.any (fun r => decide (r.sid = sid)) then
    .ok { st with students :=
      st.students.map fun r =>
        if r.sid = sid then { r with name := name, age := age, email := email } else r }
  else
    .ok { st with students := st.students ++ [⟨sid, name, age, email⟩] }

/-- db_done.py `DB.list_students`: `SELECT ... FROM students ORDER BY student_id`. -/
def list_students (st : DBState) : List DStudentRow :=
  List.insertionSort (fun a b => a.sid ≤ b.sid) st.students

/-- db_done.py `DB.list_instructors`: `ORDER BY instructor_id`. -/
def list_instructors (st : DBState) : List DInstructorRow :=
  List.insertionSort (fun a b => a.iid ≤ b.iid) st.instructors

/-- db_done.py `DB.list_courses`: left join of each course with its
instructor's name and email (nulls when unassigned), `ORDER BY c.course_id`. -/
def list_courses (st : DBState) : List (Int × String × Option String × Option String) :=
  List.insertionSort (fun a b => a.1 ≤ b.1)
    (st.courses.map fun c =>
      match c.instr.bind (fun i => st.instructors.find? fun r => decide (r.iid = i)) with
      | some ir => (c.cid, c.cname, some ir.name, some ir.email)
      | none => (c.cid, c.cname, none, none))

/-- db_done.py `DB.enroll`:
`INSERT OR IGNORE INTO enrollments(student_id, course_id) VALUES(?,?)`.
An existing `(student, course)` pair makes the insert a no-op; otherwise the
row is inserted, subject to the two foreign keys (`OR IGNORE` does not
suppress foreign-key violations). -/
def enroll (st : DBState) (sid cid : Int) : Except String DBState :=
  if st.enrollments.any (fun g => decide (g.sid = sid ∧ g.cid = cid)) then
    .ok st
  else if st.students.any (fun r => decide (r.sid = sid)) &&
      st.courses.any (fun c => decide (c.cid = cid)) then
    .ok { st with enrollments := st.enrollments ++ [⟨sid, cid⟩] }
  else
    .error "FOREIGN KEY constraint failed"

/-- db_done.py `DB.list_enrollments`: join with `students` on the student
id, project `(student_id, name, email)`, `ORDER BY s.student_id`. -/
def list_enrollments (st : DBState) (cid : Int) : List (Int × String × String) :=
  List.insertionSort (fun a b => a.1 ≤ b.1)
    ((st.enrollments.filter fun g => decide (g.cid = cid)).filterMap fun g =>
      (st.students.find? fun s => decide (s.sid = g.sid)).map fun s => (s.sid, s.name, s.email))

end DB

/-- Row of school_sqlite.py's `students` table (`student_id TEXT PRIMARY KEY`). -/
structure SStudentRow where
  sid : String
  name : String
  age : Int
  email : String
  deriving DecidableEq

/-- Row of school_sqlite.py's `instructors` table. -/
structure SInstructorRow where
  iid : String
  name : String
  age : Int
  email : String
  deriving DecidableEq

/-- Row of school_sqlite.py's `courses` table; `instructor_id` is a nullable
foreign key with `ON DELETE SET NULL` (and no `ON UPDATE` action). -/
structure SCourseRow where
  cid : String
  cname : String
  instr : Option String
  deriving DecidableEq

/-- Row of school_sqlite.py's `registrations` join table, PK
`(student_id, course_id)`, both foreign keys `ON DELETE CASCADE` (and no
`ON UPDATE` action). -/
structure SRegRow where
  sid : String
  cid : String
  deriving DecidableEq

/-- The four tables of school_sqlite.py's schema. -/
structure SState where
  students : List SStudentRow
  instructors : List SInstructorRow
  courses : List SCourseRow
  regs : List SRegRow
  deriving DecidableEq

namespace SqliteSchoolDB

/-- Statement `UPDATE registrations SET student_id=newId WHERE
student_id=oldId` under `PRAGMA foreign_keys=ON`: if any row is touched, the
new child value must reference an existing student (the registrations FK has
no `ON UPDATE` action, so it is checked immediately) and the composite
primary key must stay unique; on violation the statement is reverted and the
error raised. -/
def updRegsStudent (st : SState) (oldId newId : String) : Except String SState :=
  if st.regs.any (fun g => decide (g.sid = oldId)) then
    if st.students.any (fun s => decide (s.sid = newId)) then
      let regs' := st.regs.map fun g => if g.sid = oldId then { g with sid := newId } else g
      if uniqueKeys (fun g => (g.sid, g.cid)) regs' then
        .ok { st with regs := regs' }
      else .error "UNIQUE constraint failed: registrations.student_id, registrations.course_id"
    else .error "FOREIGN KEY constraint failed"
  else .ok st

/-- Statement `UPDATE students SET student_id=newId WHERE student_id=oldId`:
if a row is touched, the new primary key must be fresh, and no registration
row may still reference the old id afterwards (parent-side immediate
foreign-key check, there being no `ON UPDATE CASCADE` in this schema). -/
def updStudentsPK (st : SState) (oldId newId : String) : Except String SState :=
  if st.students.any (fun s => decide (s.sid = oldId)) then
    if st.students.any (fun s => decide (s.sid = newId)) then
      .error "UNIQUE constraint failed: students.student_id"
    else if st.regs.any (fun g => decide (g.sid = oldId)) then
      .error "FOREIGN KEY constraint failed"
    else
      .ok { st with students :=
        st.students.map fun s => if s.sid = oldId then { s with sid := newId } else s }
  else .ok st

/-- school_sqlite.py `SqliteSchoolDB.update_student`: optional per-field
`UPDATE` statements, then — when `new_id` is given and differs — the manual
"cascade registrations due to PK change": first the registrations update,
then the students primary-key update; the first failing statement raises. -/
def update_student (st : SState) (student_id : String) (name? : Option String)
    (age? : Option Int) (email? : Option String) (new_id? : Option String) :
    Except String SState :=
  let st1 :=
    match name? with
    | some n =>
        { st with students :=
            st.students.map (fun r => if r.sid = student_id then { r with name := n } else r) }
    | none => st
  let st2 :=
    match age? with
    | some a =>
        { st1 with students :=
            st1.students.map (fun r => if r.sid = student_id then { r with age := a } else r) }
    | none => st1
  let st3 :=
    match email? with
    | some e =>
        { st2 with students :=
            st2.students.map (fun r => if r.sid = student_id then { r with email := e } else r) }
    | none => st2
  match new_id? with
  | some nid =>
    if nid = student_id then .ok st3
    else
      match updRegsStudent st3 student_id nid with
      | .error e => .error e
      | .ok st4 => updStudentsPK st4 student_id nid
  | none => .ok st3

/-- Statement `UPDATE courses SET course_id=nid WHERE course_id=oldId` with
its primary-key and parent-side foreign-key checks (the registrations FK on
`course_id` has no `ON UPDATE` action). -/
def coursesPKStep (st : SState) (oldId nid : String) : Except String SState :=
  if st.courses.any (fun c => decide (c.cid = oldId)) then
    if st.courses.any (fun c => decide (c.cid = nid)) then
      .error "UNIQUE constraint failed: courses.course_id"
    else if st.regs.any (fun g => decide (g.cid = oldId)) then
      .error "FOREIGN KEY constraint failed"
    else
      .ok { st with courses :=
        st.courses.map (fun c => if c.cid = oldId then { c with cid := nid } else c) }
  else .ok st

/-- The `new_id` tail of `update_course`: when given and different,
`UPDATE registrations SET course_id=?` (child FK and composite PK checked on
the touched rows) and then the courses primary-key update. -/
def updCourseNewId (st : SState) (course_id : String) (new_id? : Option String) :
    Except String SState :=
  match new_id? with
  | some nid =>
    if nid = course_id then .ok st
    else if st.regs.any (fun g => decide (g.cid = course_id)) then
      if st.courses.any (fun c => decide (c.cid = nid)) then
        let regs' := st.regs.map (fun g => if g.cid = course_id then { g with cid := nid } else g)
        if uniqueKeys (fun g => (g.sid, g.cid)) regs' then
          coursesPKStep { st with regs := regs' } course_id nid
        else .error "UNIQUE constraint failed: registrations.student_id, registrations.course_id"
      else .error "FOREIGN KEY constraint failed"
    else coursesPKStep st course_id nid
  | none => .ok st

/-- school_sqlite.py `SqliteSchoolDB.update_course`: optional name update;
the `instructor_id` update runs only under `if instructor_id is not None`
(despite the comment "can be None = unassign"), subject to the courses FK
when a row is touched; then the manual rename propagation for `new_id`. -/
def update_course (st : SState) (course_id : String) (name? : Option String)
    (instructor_id? : Option String) (new_id? : Option String) : Except String SState :=
  let st1 :=
    match name? with
    | some n =>
        { st with courses :=
            st.courses.map (fun c => if c.cid = course_id then { c with cname := n } else c) }
    | none => st
  match instructor_id? with
  | some iid =>
    if st1.courses.any (fun c => decide (c.cid = course_id)) &&
        !(st1.instructors.any (fun i => decide (i.iid = iid))) then
      .error "FOREIGN KEY constraint failed"
    else
      let st2 :=
        { st1 with courses :=
            st1.courses.map (fun c => if c.cid = course_id then { c with instr := some iid } else c) }
      updCourseNewId st2 course_id new_id?
  | none => updCourseNewId st1 course_id new_id?

/-- school_sqlite.py `SqliteSchoolDB.delete_student`: `DELETE FROM students`
plus the `ON DELETE CASCADE` removal of that student's registrations. -/
def delete_student (st : SState) (student_id : String) : SState :=
  { st with
    students := st.students.filter (fun s => decide (s.sid ≠ student_id)),
    regs := st.regs.filter (fun g => decide (g.sid ≠ student_id)) }

/-- school_sqlite.py `SqliteSchoolDB.delete_instructor`: `DELETE FROM
instructors`; `ON DELETE SET NULL` clears the reference of every course
assigned to that instructor. -/
def delete_instructor (st : SState) (instructor_id : String) : SState :=
  { st with
    instructors := st.instructors.filter (fun i => decide (i.iid ≠ instructor_id)),
    courses := st.courses.map (fun c =>
      if c.instr = some instructor_id then { c with instr := none } else c) }

/-- The per-course enrolled-student id list used when the `courses` property
hydrates `enrolled_students` (the `SELECT student_id, course_id FROM
registrations` scan grouped by course id). -/
def enrolledIds (st : SState) (course_id : String) : List String :=
  (st.regs.filter (fun g => decide (g.cid = course_id))).map (fun g => g.sid)

end SqliteSchoolDB

/-- Codepoint-lexicographic comparison of character lists: the `BINARY`
collation SQLite applies to `ORDER BY` over `TEXT` columns (UTF-8 byte order
coincides with codepoint order). -/
def listCharLe : List Char → List Char → Bool
  | [], _ => true
  | _ :: _, [] => false
  | a :: as, b :: bs =>
    if a.toNat < b.toNat then true
    else if b.toNat < a.toNat then false
    else listCharLe as bs

/-- String comparison under SQLite's `BINARY` collation. -/
def strLe (a b : String) : Bool := listCharLe a.data b.data

/-- The hydrated result type of the school_sqlite.py `students` property: a
student row together with its registered course ids. -/
structure SStudentObj where
  sid : String
  name : String
  age : Int
  email : String
  registered : List String
  deriving DecidableEq

namespace SqliteSchoolDB

/-- school_sqlite.py `SqliteSchoolDB.students` (property): `SELECT ... FROM
students ORDER BY name`, each row hydrated with its registered course ids
from the registrations scan. -/
def studentsProp (st : SState) : List SStudentObj :=
  List.insertionSort (fun a b => strLe a.name b.name = true)
    (st.students.map (fun r =>
      ⟨r.sid, r.name, r.age, r.email,
        (st.regs.filter (fun g => decide (g.sid = r.sid))).map (fun g => g.cid)⟩))

end SqliteSchoolDB

lemma domTail_iff (cs : List Char) :
    domTail cs = true ↔ ∃ m t, cs = m ++ '.' :: t ∧ m.all isDomainChar = true ∧ tldOk t = true := by
  induction cs with
  | nil =>
    simp only [domTail]
    constructor
    · intro h; cases h
    · rintro ⟨m, t, h, -, -⟩
      exact absurd h (by simp)
  | cons c rest ih =>
    simp only [domTail, Bool.or_eq_true, Bool.and_eq_true, decide_eq_true_eq]
    constructor
    · rintro (⟨rfl, ht⟩ | ⟨hc, ht⟩)
      · exact ⟨[], rest, rfl, rfl, ht⟩
      · obtain ⟨m, t, rfl, hm, htt⟩ := ih.mp ht
        exact ⟨c :: m, t, rfl, by simp [hc, hm], htt⟩
    · rintro ⟨m, t, heq, hm, htt⟩
      cases m with
      | nil =>
        simp only [List.nil_append, List.cons.injEq] at heq
        exact Or.inl ⟨heq.1, heq.2 ▸ htt⟩
      | cons c' m' =>
        simp only [List.cons_append, List.cons.injEq] at heq
        obtain ⟨rfl, rfl⟩ := heq
        simp only [List.all_cons, Bool.and_eq_true] at hm
        exact Or.inr ⟨hm.1, ih.mpr ⟨m', t, rfl, hm.2, htt⟩⟩

lemma domainMatch_iff (cs : List Char) :
    domainMatch cs = true ↔
      ∃ d t, cs = d ++ '.' :: t ∧ d ≠ [] ∧ d.all isDomainChar = true ∧ tldOk t = true := by
  cases cs with
  | nil =>
    simp only [domainMatch]
    constructor
    · intro h; cases h
    · rintro ⟨d, t, h, -, -⟩
      exact absurd h (by simp)
  | cons c rest =>
    simp only [domainMatch, Bool.and_eq_true, domTail_iff]
    constructor
    · rintro ⟨hc, m, t, rfl, hm, ht⟩
      exact ⟨c :: m, t, rfl, by simp, by simp [hc, hm], ht⟩
    · rintro ⟨d, t, heq, hne, hd, ht⟩
      cases d with
      | nil => exact absurd rfl hne
      | cons c' m =>
        simp only [List.cons_append, List.cons.injEq] at heq
        obtain ⟨rfl, rfl⟩ := heq
        simp only [List.all_cons, Bool.and_eq_true] at hd
        exact ⟨hd.1, m, t, rfl, hd.2, ht⟩

lemma emailTail_iff (cs : List Char) :
    emailTail cs = true ↔
      ∃ l rest, cs = l ++ '@' :: rest ∧ l.all isLocalChar = true ∧ domainMatch rest = true := by
  induction cs with
  | nil =>
    simp only [emailTail]
    constructor
    · intro h; cases h
    · rintro ⟨l, rest, h, -, -⟩
      exact absurd h (by simp)
  | cons c cs₀ ih =>
    simp only [emailTail, Bool.or_eq_true, Bool.and_eq_true, decide_eq_true_eq]
    constructor
    · rintro (⟨rfl, hd⟩ | ⟨hc, ht⟩)
      · exact ⟨[], cs₀, rfl, rfl, hd⟩
      · obtain ⟨l, rest, rfl, hl, hd⟩ := ih.mp ht
        exact ⟨c :: l, rest, rfl, by simp [hc, hl], hd⟩
    · rintro ⟨l, rest, heq, hl, hd⟩
      cases l with
      | nil =>
        simp only [List.nil_append, List.cons.injEq] at heq
        exact Or.inl ⟨heq.1, heq.2 ▸ hd⟩
      | cons c' l' =>
        simp only [List.cons_append, List.cons.injEq] at heq
        obtain ⟨rfl, rfl⟩ := heq
        simp only [List.all_cons, Bool.and_eq_true] at hl
        exact Or.inr ⟨hl.1, ih.mpr ⟨l', rest, rfl, hl.2, hd⟩⟩

lemma emailMatch_iff (cs : List Char) : emailMatch cs = true ↔ EmailShape cs := by
  cases cs with
  | nil =>
    simp only [emailMatch, EmailShape]
    constructor
    · intro h; cases h
    · rintro ⟨l, d, t, h, hne, -⟩
      cases l with
      | nil => exact absurd rfl hne
      | cons a l' => exact absurd h (by simp)
  | cons c rest =>
    simp only [emailMatch, Bool.and_eq_true, emailTail_iff, EmailShape]
    constructor
    · rintro ⟨hc, l, rest₀, rfl, hl, hd⟩
      obtain ⟨d, t, rfl, hdne, hdall, ht⟩ := (domainMatch_iff rest₀).mp hd
      simp only [tldOk, Bool.and_eq_true, decide_eq_true_eq] at ht
      exact ⟨c :: l, d, t, rfl, by simp, by simp [hc, hl], hdne, hdall, ht.1, ht.2⟩
    · rintro ⟨l, d, t, heq, hlne, hl, hdne, hd, hta, htl⟩
      cases l with
      | nil => exact absurd rfl hlne
      | cons c' l' =>
        simp only [List.cons_append, List.cons.injEq] at heq
        obtain ⟨rfl, rfl⟩ := heq
        simp only [List.all_cons, Bool.and_eq_true] at hl
        refine ⟨hl.1, l', d ++ '.' :: t, rfl, hl.2, ?_⟩
        exact (domainMatch_iff _).mpr ⟨d, t, rfl, hdne, hd, by simp [tldOk, hta, htl]⟩

lemma reDollarMatch_iff (cs : List Char) :
    reDollarMatch cs = true ↔
      emailMatch cs = true ∨ ∃ t, cs = t ++ ['\n'] ∧ emailMatch t = true := by
  simp only [reDollarMatch, Bool.or_eq_true]
  constructor
  · rintro (h | h)
    · exact Or.inl h
    · right
      rcases hrev : cs.reverse with _ | ⟨c, rest⟩
      · rw [hrev] at h; cases h
      · rw [hrev] at h
        simp only [Bool.and_eq_true, decide_eq_true_eq] at h
        refine ⟨rest.reverse, ?_, h.2⟩
        have : cs = (c :: rest).reverse := by rw [← hrev, List.reverse_reverse]
        simpa [List.reverse_cons, h.1] using this
  · rintro (h | ⟨t, rfl, h⟩)
    · exact Or.inl h
    · right
      have : (t ++ ['\n']).reverse = '\n' :: t.reverse := by simp
      rw [this]
      simp [h]

lemma mapExcept_vStr (xs : List String) : mapExcept asStr (xs.map Value.vStr) = .ok xs := by
  induction xs with
  | nil => rfl
  | cons x xs ih => simp [mapExcept, asStr, ih]

lemma student_roundtrip (s : Student) (h : studentOkB s = true) :
    Student.from_dict s.save_to_dict = .ok s := by
  obtain ⟨ha, he⟩ : (0 ≤ s.age) ∧ reDollarMatch s.email.data = true := by
    simpa [studentOkB, personOkB] using h
  have h1 : Student.from_dict s.save_to_dict =
      (mapExcept asStr (s.registered_courses.map Value.vStr)) >>= fun regs =>
        Student.mk' s.name s.age s.email s.student_id regs := rfl
  rw [h1, mapExcept_vStr]
  show Student.mk' s.name s.age s.email s.student_id s.registered_courses = .ok s
  simp [Student.mk', validate_email, he, validate_age, if_neg (by omega : ¬ s.age < 0)]

lemma instructor_roundtrip (i : Instructor) (h : instructorOkB i = true) :
    Instructor.from_dict i.save_to_dict = .ok i := by
  obtain ⟨ha, he⟩ : (0 ≤ i.age) ∧ reDollarMatch i.email.data = true := by
    simpa [instructorOkB, personOkB] using h
  have h1 : Instructor.from_dict i.save_to_dict =
      (mapExcept asStr (i.assigned_courses.map Value.vStr)) >>= fun assigned =>
        Instructor.mk' i.name i.age i.email i.instructor_id assigned := rfl
  rw [h1, mapExcept_vStr]
  show Instructor.mk' i.name i.age i.email i.instructor_id i.assigned_courses = .ok i
  simp [Instructor.mk', validate_email, he, validate_age, if_neg (by omega : ¬ i.age < 0)]

lemma students_mapExcept (xs : List Student) (h : xs.all studentOkB = true) :
    mapExcept Student.from_dict (xs.map Student.save_to_dict) = .ok xs := by
  induction xs with
  | nil => rfl
  | cons x xs ih =>
    simp only [List.all_cons, Bool.and_eq_true] at h
    simp [mapExcept, student_roundtrip x h.1, ih h.2]

lemma course_roundtrip (c : Course) (h : courseOkB c = true) :
    Course.from_dict c.save_to_dict = .ok c := by
  obtain ⟨cid, cname, inst, enr⟩ := c
  simp only [courseOkB, Bool.and_eq_true] at h
  cases inst with
  | none =>
    have h1 : Course.from_dict (Course.save_to_dict ⟨cid, cname, none, enr⟩) =
        (mapExcept Student.from_dict (enr.map Student.save_to_dict)) >>= fun es =>
          pure ⟨cid, cname, none, es⟩ := rfl
    rw [h1, students_mapExcept enr h.2]
    rfl
  | some i =>
    have h1 : Course.from_dict (Course.save_to_dict ⟨cid, cname, some i, enr⟩) =
        ((Instructor.from_dict i.save_to_dict).map some) >>= fun io =>
          (mapExcept Student.from_dict (enr.map Student.save_to_dict)) >>= fun es =>
            pure ⟨cid, cname, io, es⟩ := rfl
    rw [h1, instructor_roundtrip i h.1, students_mapExcept enr h.2]
    rfl

/-- C4: for every `Student`, `Instructor` and `Course` whose fields satisfy
the constructors' validation (as any entity built through the code's
`__init__` does), deserialising the serialisation — `from_dict(save_to_dict
x)` — yields an entity whose fields all equal those of `x`, including a
course's nested instructor and nested enrolled students. -/
theorem C4_record_roundtrip (s : Student) (i : Instructor) (c : Course)
    (hs : studentOkB s = true) (hi : instructorOkB i = true) (hc : courseOkB c = true) :
    Student.from_dict s.save_to_dict = Except.ok s ∧
    Instructor.from_dict i.save_to_dict = Except.ok i ∧
    Course.from_dict c.save_to_dict = Except.ok c :=
  ⟨student_roundtrip s hs, instructor_roundtrip i hi, course_roundtrip c hc⟩

/-- Witness for C4 at a concrete course with a nested instructor and two
nested students. -/
theorem C4_record_roundtrip_witness :
    Student.from_dict (Student.save_to_dict ⟨"Ann", 20, "ann@x.com", "s1", ["c1"]⟩) =
      Except.ok ⟨"Ann", 20, "ann@x.com", "s1", ["c1"]⟩ ∧
    Instructor.from_dict (Instructor.save_to_dict ⟨"Bob", 40, "bob@x.com", "i1", ["c1"]⟩) =
      Except.ok ⟨"Bob", 40, "bob@x.com", "i1", ["c1"]⟩ ∧
    Course.from_dict (Course.save_to_dict
        ⟨"c1", "CS101", some ⟨"Bob", 40, "bob@x.com", "i1", ["c1"]⟩,
          [⟨"Ann", 20, "ann@x.com", "s1", ["c1"]⟩, ⟨"Zed", 22, "zed@x.com", "s2", []⟩]⟩) =
      Except.ok ⟨"c1", "CS101", some ⟨"Bob", 40, "bob@x.com", "i1", ["c1"]⟩,
          [⟨"Ann", 20, "ann@x.com", "s1", ["c1"]⟩, ⟨"Zed", 22, "zed@x.com", "s2", []⟩]⟩ :=
  C4_record_roundtrip _ _ _ (by decide) (by decide) (by decide)

/-- C7 counterexample: `is_valid_email` accepts `" a@b.co"` although the
string, taken whole, does not match the pattern (leading garbage), and
`validate_email` accepts `"a@b.co\n"` although the trailing newline is not
part of a match. -/
theorem C7_counterexample :
    is_valid_email [' ', 'a', '@', 'b', '.', 'c', 'o'] = true ∧
    emailMatch [' ', 'a', '@', 'b', '.', 'c', 'o'] = false ∧
    validate_email ['a', '@', 'b', '.', 'c', 'o', '\n'] = Except.ok true ∧
    emailMatch ['a', '@', 'b', '.', 'c', 'o', '\n'] = false := by
  decide

/-- C7 amended: `is_valid_email s` holds iff `s` *after stripping
leading/trailing whitespace* matches the `local@domain.tld` pattern exactly,
and `validate_email s` succeeds iff `s`, possibly up to one trailing
newline, matches it exactly; apart from surrounding whitespace / a final
newline, no leading or trailing garbage is tolerated. -/
theorem C7_email_validator_shape (cs : List Char) :
    (is_valid_email cs = true ↔ EmailShape (pyStrip cs)) ∧
    (validate_email cs = Except.ok true ↔
      (EmailShape cs ∨ ∃ t, cs = t ++ ['\n'] ∧ EmailShape t)) := by
  constructor
  · exact emailMatch_iff (pyStrip cs)
  · have hv : validate_email cs = Except.ok true ↔ reDollarMatch cs = true := by
      unfold validate_email
      cases hr : reDollarMatch cs <;> simp
    rw [hv, reDollarMatch_iff]
    simp only [emailMatch_iff]

lemma any_false_filter_nil {α : Type} (p : α → Bool) (l : List α) (h : l.any p = false) :
    l.filter p = [] := by
  induction l with
  | nil => rfl
  | cons x xs ih =>
    simp only [List.any_cons, Bool.or_eq_false_iff] at h
    simp [List.filter_cons, h.1, ih h.2]

lemma uniqueKeys_pair_filter (l : List DEnrollRow) (sid cid : Int)
    (hu : uniqueKeys (fun g => (g.sid, g.cid)) l = true)
    (hp : l.any (fun g => decide (g.sid = sid ∧ g.cid = cid)) = true) :
    (l.filter fun g => decide (g.sid = sid ∧ g.cid = cid)).length = 1 := by
  induction l with
  | nil => cases hp
  | cons x xs ih =>
    simp only [uniqueKeys, Bool.and_eq_true, Bool.not_eq_true'] at hu
    by_cases hpx : x.sid = sid ∧ x.cid = cid
    · have hfun : (fun y : DEnrollRow => decide ((y.sid, y.cid) = (x.sid, x.cid))) =
          fun y => decide (y.sid = sid ∧ y.cid = cid) := by
        funext y
        simp [Prod.ext_iff, hpx.1, hpx.2]
      have hnone : xs.any (fun y => decide (y.sid = sid ∧ y.cid = cid)) = false := by
        rw [← hfun]; exact hu.1
      have hx : (decide (x.sid = sid ∧ x.cid = cid)) = true := by simpa using hpx
      rw [List.filter_cons, if_pos hx, any_false_filter_nil _ _ hnone]
      rfl
    · simp only [List.any_cons, decide_eq_true_eq, Bool.or_eq_true] at hp
      rcases hp with hp | hp
      · exact absurd hp hpx
      · simpa [List.filter_cons, hpx] using ih hu.2 (by simpa using hp)

/-- C5: when the student and the course exist, enrolling a pair succeeds and
enrolling the same pair again is a no-op yielding the same state, not an
error; the resulting enrollments table holds exactly one row for the pair. -/
theorem C5_enroll_duplicate_noop (st : DBState) (sid cid : Int)
    (hu : uniqueKeys (fun g => (g.sid, g.cid)) st.enrollments = true)
    (hs : st.students.any (fun r => decide (r.sid = sid)) = true)
    (hc : st.courses.any (fun c => decide (c.cid = cid)) = true) :
    ∃ st₁, DB.enroll st sid cid = Except.ok st₁ ∧
      DB.enroll st₁ sid cid = Except.ok st₁ ∧
      (st₁.enrollments.filter fun g => decide (g.sid = sid ∧ g.cid = cid)).length = 1 := by
  by_cases hp : st.enrollments.any (fun g => decide (g.sid = sid ∧ g.cid = cid)) = true
  · refine ⟨st, ?_, ?_, uniqueKeys_pair_filter _ _ _ hu hp⟩
    · unfold DB.enroll; rw [if_pos hp]
    · unfold DB.enroll; rw [if_pos hp]
  · have hp' : st.enrollments.any (fun g => decide (g.sid = sid ∧ g.cid = cid)) = false :=
      eq_false_of_ne_true hp
    refine ⟨{ st with enrollments := st.enrollments ++ [⟨sid, cid⟩] }, ?_, ?_, ?_⟩
    · unfold DB.enroll
      rw [if_neg hp, if_pos (by rw [hs, hc]; rfl)]
    · unfold DB.enroll
      rw [if_pos (by simp [List.any_append])]
    · show ((st.enrollments ++ [(⟨sid, cid⟩ : DEnrollRow)]).filter
        fun g => decide (g.sid = sid ∧ g.cid = cid)).length = 1
      rw [List.filter_append, any_false_filter_nil _ _ hp']
      simp

/-- Witness for C5: a fresh student/course pair in a one-row store. -/
theorem C5_enroll_duplicate_noop_witness :
    ∃ st₁,
      DB.enroll ⟨[⟨1, "Ann", 20, "ann@x.co"⟩], [], [⟨10, "CS101", none⟩], []⟩ 1 10 =
        Except.ok st₁ ∧
      DB.enroll st₁ 1 10 = Except.ok st₁ ∧
      (st₁.enrollments.filter fun g => decide (g.sid = 1 ∧ g.cid = 10)).length = 1 :=
  C5_enroll_duplicate_noop ⟨[⟨1, "Ann", 20, "ann@x.co"⟩], [], [⟨10, "CS101", none⟩], []⟩ 1 10
    (by decide) (by decide) (by decide)

lemma map_upd_of_no_match (xs : List DStudentRow) (sid : Int) (n : String) (a : Int)
    (e : String) (h : xs.any (fun r => decide (r.sid = sid)) = false) :
    (xs.map fun r =>
      if r.sid = sid then { r with name := n, age := a, email := e } else r) = xs := by
  induction xs with
  | nil => rfl
  | cons x xs ih =>
    simp only [List.any_cons, Bool.or_eq_false_iff, decide_eq_false_iff_not] at h
    simp [List.map_cons, if_neg h.1, ih (by simpa using h.2)]

lemma filter_map_upd (xs : List DStudentRow) (sid : Int) (n : String) (a : Int) (e : String)
    (hu : uniqueKeys (fun r => r.sid) xs = true)
    (hex : xs.any (fun r => decide (r.sid = sid)) = true) :
    ((xs.map fun r =>
        if r.sid = sid then { r with name := n, age := a, email := e } else r).filter
      fun r => decide (r.sid = sid)) = [⟨sid, n, a, e⟩] := by
  induction xs with
  | nil => cases hex
  | cons x xs ih =>
    simp only [uniqueKeys, Bool.and_eq_true, Bool.not_eq_true'] at hu
    by_cases hxs : x.sid = sid
    · have hnone : xs.any (fun r => decide (r.sid = sid)) = false := by
        have := hu.1
        rwa [show (fun y : DStudentRow => decide (y.sid = x.sid)) =
          fun y => decide (y.sid = sid) from funext fun y => by rw [hxs]] at this
      rw [List.map_cons, if_pos hxs, map_upd_of_no_match xs sid n a e hnone]
      simp [List.filter_cons, hxs, any_false_filter_nil _ _ hnone]
    · simp only [List.any_cons, decide_eq_true_eq, Bool.or_eq_true] at hex
      rcases hex with hex | hex
      · exact absurd hex hxs
      · simpa [List.filter_cons, if_neg hxs, hxs] using ih hu.2 (by simpa using hex)

lemma uniqueKeys_map_sid_eq (g : DStudentRow → DStudentRow)
    (hg : ∀ r, (g r).sid = r.sid) (xs : List DStudentRow) :
    uniqueKeys (fun r => r.sid) (xs.map g) = uniqueKeys (fun r => r.sid) xs := by
  induction xs with
  | nil => rfl
  | cons x xs ih =>
    simp only [List.map_cons, uniqueKeys, List.any_map, ih]
    rw [show ((fun y => decide (y.sid = (g x).sid)) ∘ g) =
      fun y : DStudentRow => decide (y.sid = x.sid) from funext fun y => by
        simp [Function.comp, hg]]

lemma uniqueKeys_append_one {α β : Type} [DecidableEq β] (f : α → β) (xs : List α) (x : α)
    (hu : uniqueKeys f xs = true) (h : xs.any (fun y => decide (f y = f x)) = false) :
    uniqueKeys f (xs ++ [x]) = true := by
  induction xs with
  | nil => rfl
  | cons z zs ih =>
    simp only [uniqueKeys, Bool.and_eq_true, Bool.not_eq_true'] at hu
    simp only [List.any_cons, Bool.or_eq_false_iff, decide_eq_false_iff_not] at h
    simp only [List.cons_append, uniqueKeys, Bool.and_eq_true, Bool.not_eq_true']
    refine ⟨?_, ih hu.2 (by simpa using h.2)⟩
    show ((zs ++ [x]).any fun y => decide (f y = f z)) = false
    rw [List.any_append, Bool.or_eq_false_iff]
    refine ⟨hu.1, ?_⟩
    simp [Ne.symm h.1]

/-- C6: a successful `upsert_student` into a store whose student ids are
unique (the `PRIMARY KEY` invariant) leaves `list_students` with exactly one
row for that id, carrying exactly the fields of this latest call — whether
the id was fresh or already present from earlier upserts — and preserves id
uniqueness, so the property persists across any number of repeated calls. -/
theorem C6_upsert_overwrite (st : DBState) (sid : Int) (n : String) (a : Int) (e : String)
    (st' : DBState) (hu : uniqueKeys (fun r => r.sid) st.students = true)
    (h : DB.upsert_student st sid n a e = Except.ok st') :
    (DB.list_students st').filter (fun r => decide (r.sid = sid)) = [⟨sid, n, a, e⟩] ∧
    uniqueKeys (fun r => r.sid) st'.students = true := by
  unfold DB.upsert_student at h
  by_cases hconf :
      st.students.any (fun r => decide (r.email = e) && decide (r.sid ≠ sid)) = true
  · rw [if_pos hconf] at h; cases h
  · rw [if_neg hconf] at h
    by_cases hex : st.students.any (fun r => decide (r.sid = sid)) = true
    · rw [if_pos hex] at h
      injection h with h
      subst h
      constructor
      · have hperm :=
          (List.perm_insertionSort (fun a b : DStudentRow => a.sid ≤ b.sid)
            (st.students.map fun r =>
              if r.sid = sid then { r with name := n, age := a, email := e } else r)).filter
            (fun r => decide (r.sid = sid))
        rw [filter_map_upd st.students sid n a e hu hex] at hperm
        exact List.perm_singleton.mp hperm
      · show uniqueKeys _ (st.students.map _) = true
        rw [uniqueKeys_map_sid_eq _ (fun r => by by_cases hr : r.sid = sid <;> simp [hr])]
        exact hu
    · rw [if_neg hex] at h
      injection h with h
      subst h
      have hex' : st.students.any (fun r => decide (r.sid = sid)) = false :=
        eq_false_of_ne_true hex
      constructor
      · have hperm :=
          (List.perm_insertionSort (fun a b : DStudentRow => a.sid ≤ b.sid)
            (st.students ++ [⟨sid, n, a, e⟩])).filter (fun r => decide (r.sid = sid))
        rw [List.filter_append, any_false_filter_nil _ _ hex'] at hperm
        simpa using List.perm_singleton.mp (by simpa using hperm)
      · exact uniqueKeys_append_one _ _ _ hu hex'

/-- Witness for C6: upserting a fresh id next to an existing row. -/
theorem C6_upsert_overwrite_witness :
    (DB.list_students ⟨[⟨2, "Old", 30, "old@x.co"⟩, ⟨1, "Ann", 20, "ann@x.co"⟩],
        [], [], []⟩).filter (fun r => decide (r.sid = 1)) = [⟨1, "Ann", 20, "ann@x.co"⟩] ∧
    uniqueKeys (fun r => r.sid)
      (DBState.students ⟨[⟨2, "Old", 30, "old@x.co"⟩, ⟨1, "Ann", 20, "ann@x.co"⟩],
        [], [], []⟩) = true :=
  C6_upsert_overwrite ⟨[⟨2, "Old", 30, "old@x.co"⟩], [], [], []⟩ 1 "Ann" 20 "ann@x.co"
    ⟨[⟨2, "Old", 30, "old@x.co"⟩, ⟨1, "Ann", 20, "ann@x.co"⟩], [], [], []⟩
    (by decide) (by decide)

/-- C8 counterexample: `DB.upsert_student` performs no age check, so a
direct adapter call with a negative age succeeds and the stored student row
carries `age = -3 < 0` — a state reachable through the public operations
does contain a negative age. -/
theorem C8_counterexample :
    DB.upsert_student ⟨[], [], [], []⟩ 1 "Bob" (-3) "bob@x.co" =
      Except.ok ⟨[⟨1, "Bob", -3, "bob@x.co"⟩], [], [], []⟩ ∧
    ((-3 : Int) < 0) := by
  decide

/-- C8 amended: a negative age is rejected at the validation boundary —
`Person.__init__` (via `validate_age`) never constructs a person with
`age < 0` — but the db_done adapter does not defend in depth: a successful
`upsert_student` stores exactly the age it was handed, whatever its sign. -/
theorem C8_age_checked_at_boundary_only :
    (∀ (n e : String) (a : Int), a < 0 → ∀ p, Person.mk' n a e ≠ Except.ok p) ∧
    (∀ (st : DBState) (sid : Int) (n : String) (a : Int) (e : String) (st' : DBState),
      DB.upsert_student st sid n a e = Except.ok st' →
      ∃ r ∈ st'.students, r.sid = sid ∧ r.age = a) := by
  constructor
  · intro n e a ha p h
    unfold Person.mk' at h
    cases hv : validate_email e.data with
    | error msg => rw [hv] at h; cases h
    | ok b =>
      rw [hv] at h
      unfold validate_age at h
      rw [if_pos ha] at h
      cases h
  · intro st sid n a e st' h
    unfold DB.upsert_student at h
    by_cases hconf :
        st.students.any (fun r => decide (r.email = e) && decide (r.sid ≠ sid)) = true
    · rw [if_pos hconf] at h; cases h
    · rw [if_neg hconf] at h
      by_cases hex : st.students.any (fun r => decide (r.sid = sid)) = true
      · rw [if_pos hex] at h
        injection h with h
        subst h
        simp only [List.any_eq_true, decide_eq_true_eq] at hex
        obtain ⟨x, hx, hxs⟩ := hex
        refine ⟨{ x with name := n, age := a, email := e }, ?_, hxs, rfl⟩
        show _ ∈ st.students.map _
        refine List.mem_map.mpr ⟨x, hx, ?_⟩
        rw [if_pos hxs]
      · rw [if_neg hex] at h
        injection h with h
        subst h
        exact ⟨⟨sid, n, a, e⟩, by simp, rfl, rfl⟩

/-- Witness for C8's amended statement at age `-1` and an empty store. -/
theorem C8_age_checked_at_boundary_only_witness :
    Person.mk' "Bob" (-1) "bob@x.co" ≠ Except.ok ⟨"Bob", -1, "bob@x.co"⟩ ∧
    ∃ r ∈ (⟨[⟨1, "Bob", -3, "bob@x.co"⟩], [], [], []⟩ : DBState).students,
      r.sid = 1 ∧ r.age = -3 :=
  ⟨C8_age_checked_at_boundary_only.1 "Bob" "bob@x.co" (-1) (by decide) _,
   C8_age_checked_at_boundary_only.2 ⟨[], [], [], []⟩ 1 "Bob" (-3) "bob@x.co"
     ⟨[⟨1, "Bob", -3, "bob@x.co"⟩], [], [], []⟩ (by decide)⟩

lemma listCharLe_total (as : List Char) :
    ∀ bs, listCharLe as bs = true ∨ listCharLe bs as = true := by
  induction as with
  | nil => intro bs; left; rfl
  | cons a as ih =>
    intro bs
    cases bs with
    | nil => right; rfl
    | cons b bs =>
      by_cases h1 : a.toNat < b.toNat
      · left; simp [listCharLe, h1]
      · by_cases h2 : b.toNat < a.toNat
        · right; simp [listCharLe, h2]
        · rcases ih bs with h | h
          · left; simp [listCharLe, h1, h2, h]
          · right; simp [listCharLe, h1, h2, h]

lemma listCharLe_trans (as : List Char) :
    ∀ bs cs, listCharLe as bs = true → listCharLe bs cs = true → listCharLe as cs = true := by
  induction as with
  | nil => intro bs cs hab hbc; rfl
  | cons a as ih =>
    intro bs cs hab hbc
    cases bs with
    | nil => simp [listCharLe] at hab
    | cons b bs =>
      cases cs with
      | nil => simp [listCharLe] at hbc
      | cons c cs =>
        by_cases hac : a.toNat < c.toNat
        · simp [listCharLe, hac]
        · by_cases hca : c.toNat < a.toNat
          · exfalso
            by_cases h1 : a.toNat < b.toNat
            · by_cases h2 : b.toNat < c.toNat
              · omega
              · by_cases h3 : c.toNat < b.toNat
                · simp [listCharLe, h2, h3] at hbc
                · omega
            · by_cases h4 : b.toNat < a.toNat
              · simp [listCharLe, h1, h4] at hab
              · by_cases h2 : b.toNat < c.toNat
                · omega
                · by_cases h3 : c.toNat < b.toNat
                  · simp [listCharLe, h2, h3] at hbc
                  · omega
          · by_cases h1 : a.toNat < b.toNat
            · exfalso
              have hb1 : ¬ b.toNat < c.toNat := by omega
              have hb2 : c.toNat < b.toNat := by omega
              simp [listCharLe, hb1, hb2] at hbc
            · by_cases h4 : b.toNat < a.toNat
              · exfalso; simp [listCharLe, h1, h4] at hab
              · have hb1 : ¬ b.toNat < c.toNat := by omega
                have hb2 : ¬ c.toNat < b.toNat := by omega
                simp only [listCharLe] at hab hbc ⊢
                rw [if_neg h1, if_neg h4] at hab
                rw [if_neg hb1, if_neg hb2] at hbc
                rw [if_neg hac, if_neg hca]
                exact ih bs cs hab hbc

/-- C1: `update_student` with a fresh `new_id` on a student referenced by at
least one registration row fails with a foreign-key error instead of
renaming: the code updates `registrations.student_id` to the new id *before*
any student row carries that id, and the immediate foreign-key check rejects
the statement — despite the in-code comment "cascade registrations due to PK
change", the rename never reaches the student row. -/
theorem C1_rename_fails_when_referenced (st : SState) (sid nid : String)
    (href : st.regs.any (fun g => decide (g.sid = sid)) = true)
    (hfresh : st.students.any (fun s => decide (s.sid = nid)) = false)
    (hne : nid ≠ sid) :
    SqliteSchoolDB.update_student st sid none none none (some nid) =
      Except.error "FOREIGN KEY constraint failed" := by
  have h1 : SqliteSchoolDB.update_student st sid none none none (some nid) =
      (if nid = sid then Except.ok st
       else
         match SqliteSchoolDB.updRegsStudent st sid nid with
         | .error e => .error e
         | .ok st4 => SqliteSchoolDB.updStudentsPK st4 sid nid) := rfl
  rw [h1, if_neg hne]
  unfold SqliteSchoolDB.updRegsStudent
  rw [if_pos href, if_neg (by simp [hfresh])]

/-- Witness for C1: one student, one course, one registration referencing
the student; the rename to a fresh id fails. -/
theorem C1_rename_fails_when_referenced_witness :
    SqliteSchoolDB.update_student
        ⟨[⟨"s1", "Ann", 20, "ann@x.co"⟩], [], [⟨"c1", "CS101", none⟩], [⟨"s1", "c1"⟩]⟩
        "s1" none none none (some "s2") =
      Except.error "FOREIGN KEY constraint failed" :=
  C1_rename_fails_when_referenced
    ⟨[⟨"s1", "Ann", 20, "ann@x.co"⟩], [], [⟨"c1", "CS101", none⟩], [⟨"s1", "c1"⟩]⟩
    "s1" "s2" (by decide) (by decide) (by decide)

/-- C2: deleting a student removes its student row and, by the
`ON DELETE CASCADE` of the registrations table, every registration row with
that student id; afterwards no course's enrolled-student-id list (the data
`listEnrollments` / the `courses` hydration reads) contains that id. -/
theorem C2_delete_student_cascades (st : SState) (sid : String) :
    ((SqliteSchoolDB.delete_student st sid).students.all
      fun s => decide (s.sid ≠ sid)) = true ∧
    ((SqliteSchoolDB.delete_student st sid).regs.all
      fun g => decide (g.sid ≠ sid)) = true ∧
    ∀ cid, sid ∉ SqliteSchoolDB.enrolledIds (SqliteSchoolDB.delete_student st sid) cid := by
  refine ⟨?_, ?_, ?_⟩
  · simp only [SqliteSchoolDB.delete_student, List.all_eq_true, decide_eq_true_eq]
    intro s hs
    exact of_decide_eq_true (List.mem_filter.mp hs).2
  · simp only [SqliteSchoolDB.delete_student, List.all_eq_true, decide_eq_true_eq]
    intro g hg
    exact of_decide_eq_true (List.mem_filter.mp hg).2
  · intro cid hmem
    simp only [SqliteSchoolDB.enrolledIds, SqliteSchoolDB.delete_student, List.mem_map] at hmem
    obtain ⟨g, hg, hgs⟩ := hmem
    have hg₁ := List.mem_filter.mp hg
    have hg₂ := List.mem_filter.mp hg₁.1
    exact of_decide_eq_true hg₂.2 hgs

/-- C3: deleting an instructor clears (`ON DELETE SET NULL`) the instructor
reference of every course that named it, while the course rows themselves
all survive with their ids. -/
theorem C3_delete_instructor_unassigns (st : SState) (iid : String) :
    ((SqliteSchoolDB.delete_instructor st iid).courses.all
      fun c => decide (c.instr ≠ some iid)) = true ∧
    (SqliteSchoolDB.delete_instructor st iid).courses.map (fun c => c.cid) =
      st.courses.map (fun c => c.cid) := by
  constructor
  · simp only [SqliteSchoolDB.delete_instructor, List.all_eq_true, List.mem_map,
      decide_eq_true_eq]
    rintro c ⟨c₀, hc₀, rfl⟩
    by_cases h : c₀.instr = some iid
    · simp [h]
    · simp [h]
  · have hc : (SqliteSchoolDB.delete_instructor st iid).courses =
        st.courses.map (fun c => if c.instr = some iid then { c with instr := none } else c) :=
      rfl
    rw [hc, List.map_map]
    apply List.map_congr_left
    intro c hmem
    by_cases h : c.instr = some iid
    · simp [Function.comp, h]
    · simp [Function.comp, h]

/-- C9 counterexample: in the school_sqlite adapter the `students` property
orders by *name*, not by primary identifier: with rows (id "1", name "Zed")
and (id "2", name "Ann") the returned ids are `["2", "1"]`, which is not
ascending. -/
theorem C9_counterexample :
    (SqliteSchoolDB.studentsProp
        ⟨[⟨"1", "Zed", 20, "zed@x.co"⟩, ⟨"2", "Ann", 21, "ann@x.co"⟩], [], [], []⟩).map
      (fun s => s.sid) = ["2", "1"] ∧
    strLe "2" "1" = false := by
  constructor
  · decide
  · decide

/-- C9 amended: the db_done adapter's `list_students`, `list_instructors`,
`list_courses` and `list_enrollments` are each sorted ascending by primary
identifier (enrollments by student id), for every store state; the
school_sqlite adapter's `students` property is instead sorted by name. -/
theorem C9_list_orderings (st : DBState) (sst : SState) (cid : Int) :
    List.Sorted (fun a b : DStudentRow => a.sid ≤ b.sid) (DB.list_students st) ∧
    List.Sorted (fun a b : DInstructorRow => a.iid ≤ b.iid) (DB.list_instructors st) ∧
    List.Sorted (fun a b : Int × String × Option String × Option String => a.1 ≤ b.1)
      (DB.list_courses st) ∧
    List.Sorted (fun a b : Int × String × String => a.1 ≤ b.1)
      (DB.list_enrollments st cid) ∧
    List.Sorted (fun a b : SStudentObj => strLe a.name b.name = true)
      (SqliteSchoolDB.studentsProp sst) := by
  refine ⟨?_, ?_, ?_, ?_, ?_⟩
  · haveI : IsTotal DStudentRow (fun a b => a.sid ≤ b.sid) :=
      ⟨fun a b => le_total a.sid b.sid⟩
    haveI : IsTrans DStudentRow (fun a b => a.sid ≤ b.sid) :=
      ⟨fun a b c hab hbc => le_trans hab hbc⟩
    exact List.sorted_insertionSort _ _
  · haveI : IsTotal DInstructorRow (fun a b => a.iid ≤ b.iid) :=
      ⟨fun a b => le_total a.iid b.iid⟩
    haveI : IsTrans DInstructorRow (fun a b => a.iid ≤ b.iid) :=
      ⟨fun a b c hab hbc => le_trans hab hbc⟩
    exact List.sorted_insertionSort _ _
  · haveI : IsTotal (Int × String × Option String × Option String) (fun a b => a.1 ≤ b.1) :=
      ⟨fun a b => le_total a.1 b.1⟩
    haveI : IsTrans (Int × String × Option String × Option String) (fun a b => a.1 ≤ b.1) :=
      ⟨fun a b c hab hbc => le_trans hab hbc⟩
    exact List.sorted_insertionSort _ _
  · haveI : IsTotal (Int × String × String) (fun a b => a.1 ≤ b.1) :=
      ⟨fun a b => le_total a.1 b.1⟩
    haveI : IsTrans (Int × String × String) (fun a b => a.1 ≤ b.1) :=
      ⟨fun a b c hab hbc => le_trans hab hbc⟩
    exact List.sorted_insertionSort _ _
  · haveI : IsTotal SStudentObj (fun a b => strLe a.name b.name = true) :=
      ⟨fun a b => listCharLe_total a.name.data b.name.data⟩
    haveI : IsTrans SStudentObj (fun a b => strLe a.name b.name = true) :=
      ⟨fun a b c hab hbc => listCharLe_trans a.name.data b.name.data c.name.data hab hbc⟩
    exact List.sorted_insertionSort _ _

/-- C10: `update_course` called with `instructor_id = None` (and no rename)
never touches the `instructor_id` column: the `if instructor_id is not None`
guard skips the update, so every course keeps its `(course_id,
instructor_id)` pair and there is no way to clear an assigned instructor
through this operation; the other tables are untouched as well. -/
theorem C10_update_course_none_keeps_instructor (st : SState) (course_id : String)
    (name? : Option String) :
    ∃ st', SqliteSchoolDB.update_course st course_id name? none none = Except.ok st' ∧
      st'.courses.map (fun c => (c.cid, c.instr)) = st.courses.map (fun c => (c.cid, c.instr)) ∧
      st'.regs = st.regs ∧ st'.students = st.students ∧ st'.instructors = st.instructors := by
  cases name? with
  | none => exact ⟨st, rfl, rfl, rfl, rfl, rfl⟩
  | some n =>
    refine ⟨{ st with courses :=
        st.courses.map (fun c => if c.cid = course_id then { c with cname := n } else c) },
      rfl, ?_, rfl, rfl, rfl⟩
    show ((st.courses.map (fun c => if c.cid = course_id then { c with cname := n } else c)).map
      fun c => (c.cid, c.instr)) = st.courses.map (fun c => (c.cid, c.instr))
    rw [List.map_map]
    apply List.map_congr_left
    intro c hc
    by_cases h : c.cid = course_id
    · simp [Function.comp, h]
    · simp [Function.comp, h]
